import Mathlib

/-!
Verification of the real-time audio engine of `simplex_repeater.py`
(steffomix/simplex_audio_repeater).

The Python source is shallowly embedded: numeric computations on Python
floats are modelled over `ℚ` (the code's arithmetic here is plain field
arithmetic, min/max and truncation, so exact rationals reproduce its
structure), `int16` samples are modelled as `ℤ`, chunk payloads as
`List ℤ`, and the simplex trigger loop as an explicit state machine.
-/

/-- Python `int(q)` applied to a (finite) float/rational: truncation
toward zero. -/
def pyInt (q : ℚ) : ℤ := if q < 0 then ⌈q⌉ else ⌊q⌋

theorem pyInt_eq_floor {q : ℚ} (h : 0 ≤ q) : pyInt q = ⌊q⌋ := by
  simp [pyInt, not_lt.mpr h]

theorem pyInt_intCast (n : ℤ) : pyInt (n : ℚ) = n := by
  unfold pyInt
  split <;> simp

/-! ## Envelope follower (`update_level`, simplex_repeater.py lines 1082–1109)

```python
if level > self.current_damped_level:
    if rise_time_ms == 0:
        self.current_damped_level = level
    else:
        max_change = (level - self.current_damped_level) * (time_elapsed * 1000 / rise_time_ms)
        self.current_damped_level = min(self.current_damped_level + max_change, level)
else:
    if fall_time_ms == 0:
        self.current_damped_level = level
    else:
        max_change = (self.current_damped_level - level) * (time_elapsed * 1000 / fall_time_ms)
        self.current_damped_level = max(self.current_damped_level - max_change, level)
```
`elapsed_ms` below stands for the code's `time_elapsed * 1000`. -/

structure EnvelopeParams where
  rise_time_ms : ℚ
  fall_time_ms : ℚ

def update_level (p : EnvelopeParams) (current level elapsed_ms : ℚ) : ℚ :=
  if current < level then
    if p.rise_time_ms = 0 then level
    else min (current + (level - current) * (elapsed_ms / p.rise_time_ms)) level
  else
    if p.fall_time_ms = 0 then level
    else max (current - (current - level) * (elapsed_ms / p.fall_time_ms)) level

/-- Rising update with a positive attack constant and non-negative elapsed
time stays between the old damped level and the raw level. -/
theorem update_level_rise_between (p : EnvelopeParams) (current level elapsed_ms : ℚ)
    (hcl : current < level) (hτ : 0 < p.rise_time_ms) (he : 0 ≤ elapsed_ms) :
    current ≤ update_level p current level elapsed_ms ∧
      update_level p current level elapsed_ms ≤ level := by
  have hτ0 : p.rise_time_ms ≠ 0 := ne_of_gt hτ
  have hstep : 0 ≤ (level - current) * (elapsed_ms / p.rise_time_ms) := by
    apply mul_nonneg (by linarith) (div_nonneg he (le_of_lt hτ))
  constructor
  · rw [update_level, if_pos hcl, if_neg hτ0]
    exact le_min (by linarith) (le_of_lt hcl)
  · rw [update_level, if_pos hcl, if_neg hτ0]
    exact min_le_right _ _

/-- Falling (or flat) update with a positive release constant and
non-negative elapsed time stays between the raw level and the old damped
level. -/
theorem update_level_fall_between (p : EnvelopeParams) (current level elapsed_ms : ℚ)
    (hcl : ¬ current < level) (hτ : 0 < p.fall_time_ms) (he : 0 ≤ elapsed_ms) :
    level ≤ update_level p current level elapsed_ms ∧
      update_level p current level elapsed_ms ≤ current := by
  have hτ0 : p.fall_time_ms ≠ 0 := ne_of_gt hτ
  have hlc : level ≤ current := le_of_not_lt hcl
  have hstep : 0 ≤ (current - level) * (elapsed_ms / p.fall_time_ms) := by
    apply mul_nonneg (by linarith) (div_nonneg he (le_of_lt hτ))
  constructor
  · rw [update_level, if_neg hcl, if_neg hτ0]
    exact le_max_right _ _
  · rw [update_level, if_neg hcl, if_neg hτ0]
    exact max_le (by linarith) hlc

/-- C1: the envelope-follower update. With elapsed time ≥ 0:
a raw level above the current damped level with attack constant τ > 0 gives
`min (current + (raw − current)·(elapsedMs/τ)) raw`; a raw level below the
current damped level with release constant τ > 0 gives
`max (current − (current − raw)·(elapsedMs/τ)) raw`; when the relevant τ is 0
the damped level snaps to the raw level; and in all cases (with non-negative
time constants) the new damped level lies between the old damped level and
the raw level, so it moves monotonically toward the raw level and never
crosses past it. -/
theorem envelope_follower_update_spec (p : EnvelopeParams) (current level elapsed_ms : ℚ)
    (he : 0 ≤ elapsed_ms) (hrise : 0 ≤ p.rise_time_ms) (hfall : 0 ≤ p.fall_time_ms) :
    (current < level → 0 < p.rise_time_ms →
      update_level p current level elapsed_ms =
        min (current + (level - current) * (elapsed_ms / p.rise_time_ms)) level) ∧
    (level < current → 0 < p.fall_time_ms →
      update_level p current level elapsed_ms =
        max (current - (current - level) * (elapsed_ms / p.fall_time_ms)) level) ∧
    (current < level → p.rise_time_ms = 0 → update_level p current level elapsed_ms = level) ∧
    (¬ current < level → p.fall_time_ms = 0 → update_level p current level elapsed_ms = level) ∧
    (min current level ≤ update_level p current level elapsed_ms ∧
      update_level p current level elapsed_ms ≤ max current level) := by
  refine ⟨?_, ?_, ?_, ?_, ?_⟩
  · intro hcl hτ
    rw [update_level, if_pos hcl, if_neg (ne_of_gt hτ)]
  · intro hlc hτ
    rw [update_level, if_neg (not_lt.mpr (le_of_lt hlc)), if_neg (ne_of_gt hτ)]
  · intro hcl hτ
    rw [update_level, if_pos hcl, if_pos hτ]
  · intro hcl hτ
    rw [update_level, if_neg hcl, if_pos hτ]
  · by_cases hcl : current < level
    · rcases eq_or_lt_of_le hrise with hτ | hτ
      · rw [update_level, if_pos hcl, if_pos hτ.symm]
        exact ⟨min_le_right _ _, le_max_right _ _⟩
      · obtain ⟨h1, h2⟩ := update_level_rise_between p current level elapsed_ms hcl hτ he
        exact ⟨le_trans (min_le_left _ _) h1, le_trans h2 (le_max_right _ _)⟩
    · rcases eq_or_lt_of_le hfall with hτ | hτ
      · rw [update_level, if_neg hcl, if_pos hτ.symm]
        exact ⟨min_le_right _ _, le_max_right _ _⟩
      · obtain ⟨h1, h2⟩ := update_level_fall_between p current level elapsed_ms hcl hτ he
        exact ⟨le_trans (min_le_right _ _) h1, le_trans h2 (le_max_left _ _)⟩

/-- Witness for `envelope_follower_update_spec` at a concrete input:
attack 100 ms, current 0, raw 10, elapsed 50 ms. -/
theorem envelope_follower_update_spec_witness :
    (0 : ℚ) ≤ 50 ∧ (0 : ℚ) ≤ 100 ∧
      update_level ⟨100, 100⟩ 0 10 50 = 5 := by
  refine ⟨by norm_num, by norm_num, ?_⟩
  have h := (envelope_follower_update_spec ⟨100, 100⟩ 0 10 50
    (by norm_num) (by norm_num) (by norm_num)).1 (by norm_num) (by norm_num)
  rw [h]
  norm_num

/-! ## Level meter (`calculate_level`, simplex_repeater.py lines 125–141)

Mono: mean of absolute sample values. Stereo: the interleaved buffer is
reshaped to frames (left, right); per-channel mean of absolute values; the
result is the maximum of the two channel means. -/

/-- Deinterleave a stereo buffer `[L, R, L, R, ...]` into frames, as
numpy's `reshape(-1, 2)`. -/
def toFrames : List ℤ → List (ℤ × ℤ)
  | a :: b :: rest => (a, b) :: toFrames rest
  | _ => []

/-- Mean of absolute values of a sample list (`np.abs(x).mean()`). -/
def mean_abs (xs : List ℤ) : ℚ :=
  (xs.map (fun x => |(x : ℚ)|)).sum / xs.length

def calculate_level (input_channels : ℕ) (data : List ℤ) : ℚ :=
  if input_channels = 2 then
    max (mean_abs ((toFrames data).map Prod.fst))
        (mean_abs ((toFrames data).map Prod.snd))
  else
    mean_abs data

theorem mean_abs_nonneg (xs : List ℤ) : 0 ≤ mean_abs xs := by
  unfold mean_abs
  apply div_nonneg _ (by positivity)
  apply List.sum_nonneg
  intro q hq
  obtain ⟨x, _, rfl⟩ := List.mem_map.mp hq
  exact abs_nonneg _

theorem calculate_level_nonneg (input_channels : ℕ) (data : List ℤ) :
    0 ≤ calculate_level input_channels data := by
  unfold calculate_level
  split
  · exact le_max_of_le_left (mean_abs_nonneg _)
  · exact mean_abs_nonneg _

/-- C7: the damped level stays non-negative. The level meter returns a
non-negative value on every chunk, and an envelope-follower update from a
non-negative damped level, fed a non-negative raw level (as the meter always
produces) with non-negative elapsed time and non-negative time constants,
yields a non-negative damped level. -/
theorem damped_level_nonneg (input_channels : ℕ) (data : List ℤ)
    (p : EnvelopeParams) (current raw elapsed_ms : ℚ)
    (hcur : 0 ≤ current) (hraw : 0 ≤ raw) (he : 0 ≤ elapsed_ms)
    (hrise : 0 ≤ p.rise_time_ms) :
    0 ≤ calculate_level input_channels data ∧
      0 ≤ update_level p current raw elapsed_ms := by
  refine ⟨calculate_level_nonneg _ _, ?_⟩
  by_cases hcl : current < raw
  · rcases eq_or_lt_of_le hrise with hτ | hτ
    · rw [update_level, if_pos hcl, if_pos hτ.symm]
      exact hraw
    · obtain ⟨h1, _⟩ := update_level_rise_between p current raw elapsed_ms hcl hτ he
      exact le_trans hcur h1
  · rw [update_level, if_neg hcl]
    split
    · exact hraw
    · exact le_trans hraw (le_max_right _ _)

/-- Witness for `damped_level_nonneg`: a concrete stereo chunk, current
damped level 3, raw level 1, elapsed 10 ms, release constant 100 ms. -/
theorem damped_level_nonneg_witness :
    (0 : ℚ) ≤ 3 ∧ (0 : ℚ) ≤ 1 ∧ (0 : ℚ) ≤ 10 ∧ (0 : ℚ) ≤ 0 ∧
      0 ≤ calculate_level 2 [5, -7, 3, 1] ∧ 0 ≤ update_level ⟨0, 100⟩ 3 1 10 := by
  refine ⟨by norm_num, by norm_num, by norm_num, le_refl 0, ?_⟩
  exact damped_level_nonneg 2 [5, -7, 3, 1] ⟨0, 100⟩ 3 1 10
    (by norm_num) (by norm_num) (by norm_num) (le_refl 0)

/-! ## Channel converter (`convert_channels`, simplex_repeater.py lines 97–123)

```python
if from_channels == to_channels:
    return data
if from_channels == 2 and to_channels == 1:
    audio_np = audio_np.reshape(-1, 2)
    mono = audio_np.mean(axis=1).astype(np.int16)
    return mono.tobytes()
elif from_channels == 1 and to_channels == 2:
    stereo = np.column_stack([audio_np, audio_np]).flatten()
    return stereo.tobytes()
return data
```
`mean(axis=1)` of two int16 values is the exact rational `(l + r) / 2`
(float64 is exact on this range); `astype(np.int16)` truncates toward zero
(`pyInt`; the mean of two int16 values always lies in int16 range, so no
wrap-around can occur). `np.column_stack([x, x]).flatten()` interleaves the
channel with itself (`monoToStereo`). -/

def monoToStereo : List ℤ → List ℤ
  | [] => []
  | x :: rest => x :: x :: monoToStereo rest

def convert_channels (data : List ℤ) (from_channels to_channels : ℕ) : List ℤ :=
  if from_channels = to_channels then data
  else if from_channels = 2 ∧ to_channels = 1 then
    (toFrames data).map (fun f => pyInt (((f.1 : ℚ) + (f.2 : ℚ)) / 2))
  else if from_channels = 1 ∧ to_channels = 2 then
    monoToStereo data
  else data

theorem toFrames_monoToStereo (data : List ℤ) :
    toFrames (monoToStereo data) = data.map (fun x => (x, x)) := by
  induction data with
  | nil => rfl
  | cons a rest ih => rw [monoToStereo, toFrames, ih, List.map_cons]

/-- C9: channel conversion is the identity for equal channel counts;
mono→stereo duplicates each sample into both channels; stereo→mono takes the
truncated per-frame average of the two channels; and the mono→stereo→mono
round trip reproduces the original samples exactly (the duplicated channels
average to themselves, so no rounding or clipping can occur). -/
theorem convert_channels_spec (data : List ℤ) (c : ℕ) :
    convert_channels data c c = data ∧
    convert_channels data 1 2 = monoToStereo data ∧
    (∀ a b rest, convert_channels (a :: b :: rest) 2 1 =
      pyInt (((a : ℚ) + (b : ℚ)) / 2) :: convert_channels rest 2 1) ∧
    convert_channels (convert_channels data 1 2) 2 1 = data := by
  have key : ∀ x : ℤ, pyInt (((x : ℚ) + (x : ℚ)) / 2) = x := by
    intro x
    have hx : ((x : ℚ) + (x : ℚ)) / 2 = (x : ℚ) := by ring
    rw [hx, pyInt_intCast]
  refine ⟨?_, ?_, ?_, ?_⟩
  · simp [convert_channels]
  · simp [convert_channels]
  · intro a b rest
    simp [convert_channels, toFrames]
  · simp only [convert_channels]
    norm_num
    rw [toFrames_monoToStereo, List.map_map]
    have hcomp : ((fun f : ℤ × ℤ => pyInt (((f.1 : ℚ) + (f.2 : ℚ)) / 2)) ∘
        fun x : ℤ => (x, x)) = fun x : ℤ => x := by
      funext x
      exact key x
    rw [hcomp, List.map_id']

/-! ## Duplex delay target depth (`calculate_delayed_buffer_size`,
simplex_repeater.py lines 1175–1180)

```python
delay_ms = self.playback_delay_var.get()
delay_chunks = int((delay_ms / 1000.0) * self.RATE / self.CHUNK)
delay_chunks = max(2, delay_chunks)
self.delayed_playback_buffer_size = delay_chunks
```
-/

def calculate_delayed_buffer_size (delay_ms : ℚ) (rate chunkFrames : ℕ) : ℤ :=
  max 2 (pyInt (delay_ms / 1000 * (rate : ℚ) / (chunkFrames : ℚ)))

/-- C5 counterexample: at delay 60 ms, rate 44000 Hz, chunk 1024 frames
(the session's defaults), the code computes target depth 2, while the
claimed formula `max(2, round(delay_ms/1000 × rate / chunkFrames))`
gives 3 (the chunk quotient is 2.578125). -/
theorem delayed_buffer_size_not_round :
    calculate_delayed_buffer_size 60 44000 1024 = 2 ∧
      max 2 (round ((60 : ℚ) / 1000 * (44000 : ℚ) / (1024 : ℚ))) = 3 ∧
      (2 : ℤ) ≠ 3 := by
  refine ⟨?_, ?_, by decide⟩
  · rw [calculate_delayed_buffer_size]
    have hq : (60 : ℚ) / 1000 * ((44000 : ℕ) : ℚ) / ((1024 : ℕ) : ℚ) = 2640 / 1024 := by
      push_cast
      norm_num
    rw [hq, pyInt_eq_floor (by norm_num)]
    have h2 : ⌊(2640 : ℚ) / 1024⌋ = 2 := by
      rw [Int.floor_eq_iff]
      norm_num
    rw [h2]
    norm_num
  · have hq : (60 : ℚ) / 1000 * (44000 : ℚ) / (1024 : ℚ) = 2640 / 1024 := by norm_num
    rw [hq, round_eq]
    have h3 : ⌊(2640 : ℚ) / 1024 + 1 / 2⌋ = 3 := by
      rw [Int.floor_eq_iff]
      norm_num
    rw [h3]
    norm_num

/-- C5 amended: for every delay ≥ 0, the recomputed duplex target depth is
`max 2 ⌊delay_ms/1000 × rate / chunkFrames⌋` — the fractional chunk count is
truncated (Python `int`), not rounded to nearest. -/
theorem delayed_buffer_size_spec (delay_ms : ℚ) (rate chunkFrames : ℕ)
    (h : 0 ≤ delay_ms) :
    calculate_delayed_buffer_size delay_ms rate chunkFrames =
      max 2 ⌊delay_ms / 1000 * (rate : ℚ) / (chunkFrames : ℚ)⌋ := by
  rw [calculate_delayed_buffer_size, pyInt_eq_floor]
  positivity

/-- Witness for `delayed_buffer_size_spec` at delay 60 ms, rate 44000,
chunk 1024. -/
theorem delayed_buffer_size_spec_witness :
    (0 : ℚ) ≤ 60 ∧ calculate_delayed_buffer_size 60 44000 1024 =
      max 2 ⌊(60 : ℚ) / 1000 * ((44000 : ℕ) : ℚ) / ((1024 : ℕ) : ℚ)⌋ :=
  ⟨by norm_num, delayed_buffer_size_spec 60 44000 1024 (by norm_num)⟩

/-! ## Simplex recording episode (`start_recording`,
simplex_repeater.py lines 1391–1463)

```python
chunks_for_stop = int(self.RATE / self.CHUNK * stop_time)
...
def get_chunks_to_record():
    record_time = self.record_time_var.get()
    return int(self.RATE / self.CHUNK * record_time)
chunk_count = 0
for _ in range(get_chunks_to_record()):
    if not self.running: break
    chunks_to_record = get_chunks_to_record()
    if chunk_count >= chunks_to_record: break
    data = self.stream_in.read(self.CHUNK, ...)
    chunk_count += 1
    self.audio_buffer.append(data)
    ...
    if self.current_damped_level < stop_threshold:
        low_level_counter += 1
        if low_level_counter >= chunks_for_stop: break
    else:
        low_level_counter = 0
```
-/

def chunks_for_stop (rate chunkFrames : ℕ) (stop_time : ℚ) : ℤ :=
  pyInt ((rate : ℚ) / (chunkFrames : ℚ) * stop_time)

def chunks_to_record (rate chunkFrames : ℕ) (record_time : ℚ) : ℤ :=
  pyInt ((rate : ℚ) / (chunkFrames : ℚ) * record_time)

structure RecConfig where
  stop_threshold : ℚ
  chunksForStop : ℤ
  chunksToRecord : ℤ

/-- State of one recording episode: the below-stop counter, the number of
chunks captured so far, and whether the loop has ended. -/
structure RecState where
  low_level_counter : ℤ
  chunk_count : ℤ
  ended : Bool
  deriving DecidableEq

/-- One iteration of the capture loop, fed the damped level produced for
that iteration's chunk. -/
def record_step (cfg : RecConfig) (s : RecState) (damped : ℚ) : RecState :=
  if s.ended then s
  else if cfg.chunksToRecord ≤ s.chunk_count then { s with ended := true }
  else
    let cc := s.chunk_count + 1
    if damped < cfg.stop_threshold then
      let lc := s.low_level_counter + 1
      ⟨lc, cc, decide (cfg.chunksForStop ≤ lc) || decide (cfg.chunksToRecord ≤ cc)⟩
    else
      ⟨0, cc, decide (cfg.chunksToRecord ≤ cc)⟩

/-- C2 counterexample: with stop_time = 0.5 s, rate = 44100 and
chunkFrames = 1024, the code's counter limit is
`int(44100/1024 * 0.5) = int(21.533...) = 21`, not the claimed
`ceil(0.5 × 44100/1024) = 22`. -/
theorem chunks_for_stop_not_ceil :
    chunks_for_stop 44100 1024 (1 / 2) = 21 ∧
      ⌈((44100 : ℕ) : ℚ) / ((1024 : ℕ) : ℚ) * (1 / 2)⌉ = 22 ∧ (21 : ℤ) ≠ 22 := by
  have hq : ((44100 : ℕ) : ℚ) / ((1024 : ℕ) : ℚ) * (1 / 2) = 22050 / 1024 := by
    push_cast
    norm_num
  refine ⟨?_, ?_, by decide⟩
  · rw [chunks_for_stop, hq, pyInt_eq_floor (by norm_num)]
    rw [Int.floor_eq_iff]
    norm_num
  · rw [hq, Int.ceil_eq_iff]
    norm_num

/-- C2 amended: the below-stop counter is incremented on each captured
chunk whose damped level is < stop_threshold and reset to 0 otherwise;
a capture-loop iteration ends the recording exactly when that counter
reaches `⌊stop_time × rate / chunkFrames⌋` or the total number of captured
chunks reaches `⌊record_time × rate / chunkFrames⌋` (both limits are
truncated, not rounded up; the engine being stopped externally ends the
episode by cutting the chunk stream short); with stop_time = 0.5 s,
rate = 44100 and chunkFrames = 1024 the counter limit is 21 chunks. -/
theorem recording_stop_spec (cfg : RecConfig) (s : RecState) (damped : ℚ)
    (rate chunkFrames : ℕ) (stop_time record_time : ℚ)
    (hst : 0 ≤ stop_time) (hrt : 0 ≤ record_time)
    (hended : s.ended = false) (hcount : s.chunk_count < cfg.chunksToRecord) :
    chunks_for_stop rate chunkFrames stop_time =
      ⌊(rate : ℚ) / (chunkFrames : ℚ) * stop_time⌋ ∧
    chunks_to_record rate chunkFrames record_time =
      ⌊(rate : ℚ) / (chunkFrames : ℚ) * record_time⌋ ∧
    (record_step cfg s damped).chunk_count = s.chunk_count + 1 ∧
    (record_step cfg s damped).low_level_counter =
      (if damped < cfg.stop_threshold then s.low_level_counter + 1 else 0) ∧
    ((record_step cfg s damped).ended = true ↔
      (damped < cfg.stop_threshold ∧ cfg.chunksForStop ≤ s.low_level_counter + 1) ∨
        cfg.chunksToRecord ≤ s.chunk_count + 1) ∧
    chunks_for_stop 44100 1024 (1 / 2) = 21 := by
  have hmul : 0 ≤ (rate : ℚ) / (chunkFrames : ℚ) * stop_time := by positivity
  have hmul2 : 0 ≤ (rate : ℚ) / (chunkFrames : ℚ) * record_time := by positivity
  have hnotfull : ¬ cfg.chunksToRecord ≤ s.chunk_count := not_le.mpr hcount
  refine ⟨pyInt_eq_floor hmul, pyInt_eq_floor hmul2, ?_, ?_, ?_, ?_⟩
  · rw [record_step, if_neg (by rw [hended]; exact Bool.false_ne_true), if_neg hnotfull]
    by_cases hd : damped < cfg.stop_threshold <;> simp [hd]
  · rw [record_step, if_neg (by rw [hended]; exact Bool.false_ne_true), if_neg hnotfull]
    by_cases hd : damped < cfg.stop_threshold <;> simp [hd]
  · rw [record_step, if_neg (by rw [hended]; exact Bool.false_ne_true), if_neg hnotfull]
    by_cases hd : damped < cfg.stop_threshold <;> simp [hd]
  · exact chunks_for_stop_not_ceil.1

/-- Witness for `recording_stop_spec`: a fresh episode state, damped level
50 below stop threshold 100, limits 21 and 1291 (0.5 s and 30 s at
44100 Hz / 1024 frames). -/
theorem recording_stop_spec_witness :
    (0 : ℚ) ≤ 1 / 2 ∧ (0 : ℚ) ≤ 30 ∧
      RecState.ended ⟨0, 0, false⟩ = false ∧
      RecState.chunk_count ⟨0, 0, false⟩ < (1291 : ℤ) ∧
      (record_step ⟨100, 21, 1291⟩ ⟨0, 0, false⟩ 50).low_level_counter = 1 := by
  refine ⟨by norm_num, by norm_num, rfl, by decide, ?_⟩
  have h := (recording_stop_spec ⟨100, 21, 1291⟩ ⟨0, 0, false⟩ 50 44100 1024 (1 / 2) 30
    (by norm_num) (by norm_num) rfl (by decide)).2.2.2.1
  rw [h]
  norm_num

/-! ## Threshold invariant (`on_threshold_change` lines 821–834,
`load_config` lines 1592–1601)

```python
def on_threshold_change(self, value):          # start slider moved
    start_threshold = int(float(value))
    stop_threshold = self.stop_threshold_var.get()
    if start_threshold < stop_threshold:
        self.stop_threshold_var.set(start_threshold)
    self.stop_threshold_scale.config(to=start_threshold)

# load_config tail:
start_threshold = self.start_threshold_var.get()
stop_threshold = self.stop_threshold_var.get()
if stop_threshold > start_threshold:
    self.stop_threshold_var.set(start_threshold)
self.stop_threshold_scale.config(to=start_threshold)
```
The stop-threshold slider itself has no callback; it is a `ttk.Scale` with
`from_=0` and `to` kept equal to the current start threshold by the two
fragments above, so a drag of that slider can only store a value inside
`[0, start_threshold]` — modelled as a clamp into that interval.
`load_config` runs at startup (before any slider event) and sets both
values from the configuration file before re-establishing the invariant. -/

structure ThresholdState where
  start_threshold : ℤ
  stop_threshold : ℤ
  /-- The `to=` bound currently configured on the stop-threshold slider. -/
  stop_scale_max : ℤ

/-- External updates to the two thresholds. -/
inductive ThresholdOp
  /-- `on_threshold_change v`: the start slider was moved to `v`. -/
  | startSlider (v : ℤ)
  /-- The stop slider was dragged to `v`; the widget confines the stored
  value to `[0, to]`. -/
  | stopSlider (v : ℤ)
  /-- `load_config` read `a` as start and `b` as stop from the file. -/
  | loadConfig (a b : ℤ)

def threshold_step (s : ThresholdState) : ThresholdOp → ThresholdState
  | .startSlider v =>
      ⟨v, if v < s.stop_threshold then v else s.stop_threshold, v⟩
  | .stopSlider v =>
      { s with stop_threshold := max 0 (min v s.stop_scale_max) }
  | .loadConfig a b =>
      ⟨a, if b > a then a else b, a⟩

/-- Slider positions are produced by the GUI inside the widget range; a
loaded start threshold is non-negative (the configuration is written from
the sliders, whose range is `[0, 10000]`). -/
def ThresholdOp.wf : ThresholdOp → Prop
  | .startSlider v => 0 ≤ v
  | .stopSlider _ => True
  | .loadConfig a _ => 0 ≤ a

def thresholdInv (s : ThresholdState) : Prop :=
  s.stop_threshold ≤ s.start_threshold ∧
    s.stop_scale_max ≤ s.start_threshold ∧ 0 ≤ s.start_threshold

theorem threshold_step_inv (s : ThresholdState) (op : ThresholdOp)
    (hs : thresholdInv s) (hop : op.wf) : thresholdInv (threshold_step s op) := by
  obtain ⟨h1, h2, h3⟩ := hs
  cases op with
  | startSlider v =>
      refine ⟨?_, le_refl v, hop⟩
      by_cases h : v < s.stop_threshold <;> simp [threshold_step, h]
      omega
  | stopSlider v =>
      exact ⟨le_trans (max_le h3 (le_trans (min_le_right _ _) h2)) (le_refl _), h2, h3⟩
  | loadConfig a b =>
      refine ⟨?_, le_refl a, hop⟩
      by_cases h : b > a <;> simp [threshold_step, h]
      omega

theorem threshold_step_establishes (s : ThresholdState) (a b : ℤ) (ha : 0 ≤ a) :
    thresholdInv (threshold_step s (.loadConfig a b)) := by
  refine ⟨?_, le_refl a, ha⟩
  by_cases h : b > a <;> simp [threshold_step, h]
  omega

theorem thresholdInv_foldl (ops : List ThresholdOp) :
    ∀ t : ThresholdState, thresholdInv t → (∀ op ∈ ops, op.wf) →
      thresholdInv (ops.foldl threshold_step t) := by
  induction ops with
  | nil =>
      intro t ht _
      exact ht
  | cons op rest ih =>
      intro t ht hwf
      exact ih (threshold_step t op)
        (threshold_step_inv t op ht (hwf op (List.mem_cons_self _ _)))
        (fun o ho => hwf o (List.mem_cons_of_mem _ ho))

/-- C3: starting from the startup `load_config` (which runs before any
slider event) and applying any sequence of external threshold updates —
start-slider moves, stop-slider moves, configuration re-loads — the
invariant `stop_threshold ≤ start_threshold` holds after every update. -/
theorem stop_le_start_after_updates (s0 : ThresholdState) (a b : ℤ) (ha : 0 ≤ a)
    (ops : List ThresholdOp) (hops : ∀ op ∈ ops, op.wf) :
    (ops.foldl threshold_step (threshold_step s0 (.loadConfig a b))).stop_threshold ≤
      (ops.foldl threshold_step (threshold_step s0 (.loadConfig a b))).start_threshold :=
  (thresholdInv_foldl ops _ (threshold_step_establishes s0 a b ha) hops).1

/-- Witness for `stop_le_start_after_updates`: load start 1000 / stop 2000
from a file, then move the start slider to 500, then drag the stop slider
to 800 (the widget clamps it to 500). -/
theorem stop_le_start_after_updates_witness :
    (0 : ℤ) ≤ 1000 ∧
      (∀ op ∈ [ThresholdOp.startSlider 500, ThresholdOp.stopSlider 800], op.wf) ∧
      (([ThresholdOp.startSlider 500, ThresholdOp.stopSlider 800].foldl threshold_step
        (threshold_step ⟨1000, 100, 10000⟩ (.loadConfig 1000 2000))).stop_threshold ≤
       ([ThresholdOp.startSlider 500, ThresholdOp.stopSlider 800].foldl threshold_step
        (threshold_step ⟨1000, 100, 10000⟩ (.loadConfig 1000 2000))).start_threshold) := by
  have hwf : ∀ op ∈ [ThresholdOp.startSlider 500, ThresholdOp.stopSlider 800], op.wf := by
    intro op hop
    rcases List.mem_cons.mp hop with rfl | hop
    · exact (by norm_num : (0 : ℤ) ≤ 500)
    · rcases List.mem_cons.mp hop with rfl | hop
      · exact trivial
      · exact absurd hop (List.not_mem_nil _)
  exact ⟨by norm_num, hwf,
    stop_le_start_after_updates ⟨1000, 100, 10000⟩ 1000 2000 (by norm_num) _ hwf⟩

/-! ## Equalizer filter bank (`apply_equalizer`, simplex_repeater.py
lines 227–379)

```python
if not self.equalizer_enabled:
    return audio_data
...
all_zero = all(self.eq_gains[band].get() == 0.0 for band in self.eq_bands)
if all_zero:
    if isinstance(audio_data, bytes):
        return audio_data
    ...
is_stereo = self.input_channels == 2 and len(audio_np) > self.CHUNK
# per band: skip if sos is None; skip if abs(gain) < 0.1;
# recompute the peaking filter; skip if it became None;
# run scipy.signal.sosfilt with the band's persistent state (per channel);
# finally normalize if the peak exceeds 32767 and clip to int16.
```
`_update_peaking_filter` derives the biquad coefficients with `cos`/`sin`
(transcendental, so not a rational-arithmetic function); it is taken as an
abstract parameter `recompute : freq → gain → Option Biquad` of the model
(`none` models a band disabled for being at/above 0.95 × Nyquist). The
NaN/Inf fallbacks in the Python cannot fire over exact rationals and are
omitted. -/

/-- A second-order section normalized to `a0 = 1`. -/
structure Biquad where
  b0 : ℚ
  b1 : ℚ
  b2 : ℚ
  a1 : ℚ
  a2 : ℚ
  deriving DecidableEq

/-- One sample through a direct-form-II-transposed biquad, as
`scipy.signal.sosfilt` computes it: output and updated 2-element state. -/
def biquadStep (c : Biquad) (zi : ℚ × ℚ) (x : ℚ) : ℚ × (ℚ × ℚ) :=
  let y := c.b0 * x + zi.1
  (y, (c.b1 * x - c.a1 * y + zi.2, c.b2 * x - c.a2 * y))

def sosfilt (c : Biquad) (zi : ℚ × ℚ) : List ℚ → List ℚ × (ℚ × ℚ)
  | [] => ([], zi)
  | x :: xs =>
    let p := biquadStep c zi x
    let r := sosfilt c p.2 xs
    (p.1 :: r.1, r.2)

/-- Per-band persistent equalizer state: center frequency, current gain,
current SOS coefficients (`none` = band disabled), and one filter state per
channel (`eq_filter_states` / `eq_filter_states_right`). -/
structure EqBand where
  freq : ℚ
  gain_db : ℚ
  sos : Option Biquad
  zi_left : ℚ × ℚ
  zi_right : ℚ × ℚ

/-- The serial per-band cascade on one channel's samples, returning the
filtered samples and the updated band states. -/
def eqCascadeMono (recompute : ℚ → ℚ → Option Biquad) :
    List EqBand → List ℚ → List ℚ × List EqBand
  | [], xs => (xs, [])
  | band :: rest, xs =>
    if band.sos = none ∨ |band.gain_db| < 1 / 10 then
      let r := eqCascadeMono recompute rest xs
      (r.1, band :: r.2)
    else
      match recompute band.freq band.gain_db with
      | none =>
        let r := eqCascadeMono recompute rest xs
        (r.1, { band with sos := none } :: r.2)
      | some c =>
        let f := sosfilt c band.zi_left xs
        let r := eqCascadeMono recompute rest f.1
        (r.1, { band with sos := some c, zi_left := f.2 } :: r.2)

/-- The stereo cascade: each band filters both channels with its own
per-channel state before the next band runs. -/
def eqCascadeStereo (recompute : ℚ → ℚ → Option Biquad) :
    List EqBand → List ℚ → List ℚ → List ℚ × List ℚ × List EqBand
  | [], ls, rs => (ls, rs, [])
  | band :: rest, ls, rs =>
    if band.sos = none ∨ |band.gain_db| < 1 / 10 then
      let r := eqCascadeStereo recompute rest ls rs
      (r.1, r.2.1, band :: r.2.2)
    else
      match recompute band.freq band.gain_db with
      | none =>
        let r := eqCascadeStereo recompute rest ls rs
        (r.1, r.2.1, { band with sos := none } :: r.2.2)
      | some c =>
        let fl := sosfilt c band.zi_left ls
        let fr := sosfilt c band.zi_right rs
        let r := eqCascadeStereo recompute rest fl.1 fr.1
        (r.1, r.2.1,
          { band with sos := some c, zi_left := fl.2, zi_right := fr.2 } :: r.2.2)

def listAbsMax (xs : List ℚ) : ℚ := xs.foldl (fun m x => max m |x|) 0

/-- `np.clip(x, -32768, 32767).astype(np.int16)` on one sample. -/
def clipSample (x : ℚ) : ℤ := pyInt (max (-32768) (min 32767 x))

/-- The final limiter of `apply_equalizer`: if the peak magnitude exceeds
32767, scale the whole chunk by `32000 / peak`, then clip and convert to
int16. -/
def softLimit (xs : List ℚ) : List ℤ :=
  let m := listAbsMax xs
  (if 32767 < m then xs.map (fun x => x * (32000 / m)) else xs).map clipSample

/-- Interleave two channel sample lists back into `[L, R, L, R, ...]`
(`np.column_stack(...).flatten()`). -/
def interleave : List ℚ → List ℚ → List ℚ
  | a :: as, b :: bs => a :: b :: interleave as bs
  | _, _ => []

def apply_equalizer (recompute : ℚ → ℚ → Option Biquad)
    (equalizer_enabled : Bool) (input_channels chunkFrames : ℕ)
    (bands : List EqBand) (audio : List ℤ) : List ℤ × List EqBand :=
  if equalizer_enabled = false then (audio, bands)
  else if bands.all fun b => b.gain_db = 0 then (audio, bands)
  else
    if input_channels = 2 ∧ chunkFrames < audio.length then
      let frames := toFrames audio
      let r := eqCascadeStereo recompute bands
        (frames.map fun f => ((f.1 : ℚ))) (frames.map fun f => ((f.2 : ℚ)))
      (softLimit (interleave r.1 r.2.1), r.2.2)
    else
      let r := eqCascadeMono recompute bands (audio.map fun n => ((n : ℚ)))
      (softLimit r.1, r.2)

/-- C8: with every band gain equal to 0 dB, applying the equalizer to a
chunk returns the chunk byte-identical and leaves every filter state
untouched — the all-zero check is a fast-path no-op (and with the
equalizer disabled the input is returned unchanged as well). -/
theorem equalizer_all_zero_identity (recompute : ℚ → ℚ → Option Biquad)
    (equalizer_enabled : Bool) (input_channels chunkFrames : ℕ)
    (bands : List EqBand) (audio : List ℤ)
    (h : ∀ b ∈ bands, b.gain_db = 0) :
    apply_equalizer recompute equalizer_enabled input_channels chunkFrames bands audio =
      (audio, bands) := by
  cases equalizer_enabled with
  | false => rw [apply_equalizer, if_pos rfl]
  | true =>
      rw [apply_equalizer, if_neg (by simp), if_pos]
      rw [List.all_eq_true]
      intro b hb
      exact decide_eq_true (h b hb)

/-- Witness for `equalizer_all_zero_identity`: two bands at 0 dB, a
concrete chunk. -/
theorem equalizer_all_zero_identity_witness :
    (∀ b ∈ [EqBand.mk 150 0 none (0, 0) (0, 0),
            EqBand.mk 1000 0 (some ⟨1, 0, 0, 0, 0⟩) (0, 0) (0, 0)], b.gain_db = 0) ∧
    apply_equalizer (fun _ _ => none) true 2 1024
        [EqBand.mk 150 0 none (0, 0) (0, 0),
         EqBand.mk 1000 0 (some ⟨1, 0, 0, 0, 0⟩) (0, 0) (0, 0)] [5, -3, 7] =
      ([5, -3, 7],
        [EqBand.mk 150 0 none (0, 0) (0, 0),
         EqBand.mk 1000 0 (some ⟨1, 0, 0, 0, 0⟩) (0, 0) (0, 0)]) := by
  have h : ∀ b ∈ [EqBand.mk 150 0 none (0, 0) (0, 0),
      EqBand.mk 1000 0 (some ⟨1, 0, 0, 0, 0⟩) (0, 0) (0, 0)], b.gain_db = 0 := by
    intro b hb
    rcases List.mem_cons.mp hb with rfl | hb
    · rfl
    · rcases List.mem_cons.mp hb with rfl | hb
      · rfl
      · exact absurd hb (List.not_mem_nil _)
  exact ⟨h, equalizer_all_zero_identity (fun _ _ => none) true 2 1024 _ _ h⟩

/-- C10: with the equalizer-enabled flag false, `apply_equalizer` returns
its input unchanged and does not touch any filter state, regardless of the
per-band gains. -/
theorem equalizer_disabled_identity (recompute : ℚ → ℚ → Option Biquad)
    (input_channels chunkFrames : ℕ) (bands : List EqBand) (audio : List ℤ) :
    apply_equalizer recompute false input_channels chunkFrames bands audio =
      (audio, bands) := by
  rw [apply_equalizer, if_pos rfl]

/-! ## Simplex trigger state machine
(`audio_loop_simplex` lines 1286–1389, `start_recording` lines 1391–1466,
`play_audio` lines 1491–1531, `simplex_playback_thread` lines 1303–1335)

The single processing thread executes, in program order: the main loop
(idle / dead-time, reading one chunk per iteration and appending it to the
delay ring buffer when monitoring is enabled); on trigger
(`not is_playing and not is_recording` and the damped level above the start
threshold, line 1368) `start_recording`, which sets `is_recording = True`,
clears the capture buffer, captures chunks (each also appended to the delay
ring buffer when monitoring is enabled, lines 1427–1436), then sets
`is_recording = False` (line 1459) and, if the capture buffer is non-empty,
calls `play_audio`, which sets `is_playing = True`, pops and writes the
captured chunks, and sets `is_playing = False` (line 1526). A concurrent
monitor-playback thread pops the delay ring buffer down to one below its
target size and writes the result to the output whenever
`monitoring_enabled and not is_playing` and the buffer has reached the
target size (line 1312) — it may fire at any program point of the main
thread. Trigger conditions that depend on the signal level and the clock
(damped level, dead time) are abstracted: a transition's presence means the
corresponding program path can be taken for some input. -/

inductive SimplexPC
  /-- Top of the `while self.running` loop (Idle / DeadTime). -/
  | mainLoop
  /-- Inside `start_recording`'s capture loop (`is_recording` is True). -/
  | recLoop
  /-- After line 1459 (`is_recording = False`), before the playback
  decision at line 1462. -/
  | afterRecord
  /-- Inside `play_audio`'s loop (`is_playing` is True). -/
  | playLoop
  deriving DecidableEq

structure SimplexSt where
  pc : SimplexPC
  is_recording : Bool
  is_playing : Bool
  monitoring_enabled : Bool
  /-- `len(self.audio_buffer)`: captured chunks awaiting playback. -/
  audio_buffer : ℕ
  /-- `len(self.delayed_playback_buffer)`: monitor delay ring occupancy. -/
  delayed_buffer : ℕ
  deriving DecidableEq

/-- State at the top of `audio_loop_simplex`, after the delay ring buffer
has been pre-filled with `prefill` silence chunks (lines 1296–1298). -/
def simplexInit (monitoring : Bool) (prefill : ℕ) : SimplexSt :=
  ⟨.mainLoop, false, false, monitoring, 0, prefill⟩

inductive SimplexStep (size : ℕ) : SimplexSt → SimplexSt → Prop
  /-- Main-loop iteration without trigger (lines 1341–1365); the chunk is
  appended to the delay ring buffer only when monitoring is enabled. -/
  | idleChunk (s : SimplexSt) (hpc : s.pc = .mainLoop) :
      SimplexStep size s ⟨.mainLoop, s.is_recording, s.is_playing, s.monitoring_enabled,
        s.audio_buffer, if s.monitoring_enabled then s.delayed_buffer + 1 else s.delayed_buffer⟩
  /-- The damped level exceeded the start threshold outside dead time with
  neither flag set (line 1368/1376): enter `start_recording`, which sets
  `is_recording` and clears the capture buffer (lines 1393–1394). -/
  | triggerRecord (s : SimplexSt) (hpc : s.pc = .mainLoop)
      (hrec : s.is_recording = false) (hplay : s.is_playing = false) :
      SimplexStep size s ⟨.recLoop, true, s.is_playing, s.monitoring_enabled,
        0, s.delayed_buffer⟩
  /-- One capture-loop iteration (lines 1409–1453): the chunk is appended
  to the capture buffer, and also to the delay ring buffer when monitoring
  is enabled (lines 1427–1436). -/
  | recChunk (s : SimplexSt) (hpc : s.pc = .recLoop) :
      SimplexStep size s ⟨.recLoop, s.is_recording, s.is_playing, s.monitoring_enabled,
        s.audio_buffer + 1,
        if s.monitoring_enabled then s.delayed_buffer + 1 else s.delayed_buffer⟩
  /-- The capture loop ended (stop counter, record limit or external stop):
  line 1459 clears `is_recording`. -/
  | finishRecord (s : SimplexSt) (hpc : s.pc = .recLoop) :
      SimplexStep size s ⟨.afterRecord, false, s.is_playing, s.monitoring_enabled,
        s.audio_buffer, s.delayed_buffer⟩
  /-- A non-empty capture buffer starts playback (lines 1462–1463, 1493). -/
  | beginPlay (s : SimplexSt) (hpc : s.pc = .afterRecord) (hbuf : 0 < s.audio_buffer) :
      SimplexStep size s ⟨.playLoop, s.is_recording, true, s.monitoring_enabled,
        s.audio_buffer, s.delayed_buffer⟩
  /-- An empty capture buffer skips playback and returns to the main loop. -/
  | skipPlay (s : SimplexSt) (hpc : s.pc = .afterRecord) (hbuf : s.audio_buffer = 0) :
      SimplexStep size s ⟨.mainLoop, s.is_recording, s.is_playing, s.monitoring_enabled,
        0, s.delayed_buffer⟩
  /-- One playback-loop iteration pops a captured chunk (lines 1501–1513). -/
  | playChunk (s : SimplexSt) (hpc : s.pc = .playLoop) (hbuf : 0 < s.audio_buffer) :
      SimplexStep size s ⟨.playLoop, s.is_recording, s.is_playing, s.monitoring_enabled,
        s.audio_buffer - 1, s.delayed_buffer⟩
  /-- The playback loop ended: `is_playing = False`, buffer cleared
  (lines 1526–1527), back to the main loop. -/
  | finishPlay (s : SimplexSt) (hpc : s.pc = .playLoop) :
      SimplexStep size s ⟨.mainLoop, s.is_recording, false, s.monitoring_enabled,
        0, s.delayed_buffer⟩
  /-- The concurrent monitor-playback thread fires (line 1312): requires
  monitoring enabled, `not is_playing`, and occupancy ≥ target size; it
  pops the buffer down to `size - 1` chunks and writes them out. -/
  | monitorWrite (s : SimplexSt) (hmon : s.monitoring_enabled = true)
      (hplay : s.is_playing = false) (hocc : size ≤ s.delayed_buffer) :
      SimplexStep size s ⟨s.pc, s.is_recording, s.is_playing, s.monitoring_enabled,
        s.audio_buffer, size - 1⟩

/-- The two status flags exactly mirror the control position: `is_recording`
holds exactly inside the capture loop, `is_playing` exactly inside the
playback loop. -/
def simplexFlagsInv (s : SimplexSt) : Prop :=
  (s.is_recording = true ↔ s.pc = .recLoop) ∧ (s.is_playing = true ↔ s.pc = .playLoop)

theorem simplexFlagsInv_step (size : ℕ) {s t : SimplexSt}
    (hs : simplexFlagsInv s) (hstep : SimplexStep size s t) : simplexFlagsInv t := by
  obtain ⟨hr, hp⟩ := hs
  cases hstep with
  | idleChunk hpc => exact ⟨by simp [hpc] at hr; simp [hr], by simp [hpc] at hp; simp [hp]⟩
  | triggerRecord hpc hrec hplay => exact ⟨by simp, by simp [hplay]⟩
  | recChunk hpc => exact ⟨by simp [hpc] at hr; simp [hr], by simp [hpc] at hp; simp [hp]⟩
  | finishRecord hpc => exact ⟨by simp, by simp [hpc] at hp; simp [hp]⟩
  | beginPlay hpc hbuf => exact ⟨by simp [hpc] at hr; simp [hr], by simp⟩
  | skipPlay hpc hbuf => exact ⟨by simp [hpc] at hr; simp [hr], by simp [hpc] at hp; simp [hp]⟩
  | playChunk hpc hbuf => exact ⟨by simp [hpc] at hr; simp [hr], by simp [hpc] at hp; simp [hp]⟩
  | finishPlay hpc => exact ⟨by simp [hpc] at hr; simp [hr], by simp⟩
  | monitorWrite hmon hplay hocc => exact ⟨hr, hp⟩

theorem simplexFlagsInv_reachable (size prefill : ℕ) (monitoring : Bool) (s : SimplexSt)
    (h : Relation.ReflTransGen (SimplexStep size) (simplexInit monitoring prefill) s) :
    simplexFlagsInv s := by
  induction h with
  | refl => exact ⟨by simp [simplexInit], by simp [simplexInit]⟩
  | tail hab hbc ih => exact simplexFlagsInv_step size ih hbc

/-- C4: in every state the simplex engine can reach — across
`start_recording`, `play_audio` and the return to idle — the `is_recording`
and `is_playing` flags are never simultaneously true. -/
theorem recording_playing_mutually_exclusive (size prefill : ℕ) (monitoring : Bool)
    (s : SimplexSt)
    (h : Relation.ReflTransGen (SimplexStep size) (simplexInit monitoring prefill) s) :
    ¬ (s.is_recording = true ∧ s.is_playing = true) := by
  obtain ⟨hr, hp⟩ := simplexFlagsInv_reachable size prefill monitoring s h
  rintro ⟨h1, h2⟩
  rw [hr] at h1
  rw [hp] at h2
  rw [h1] at h2
  exact SimplexPC.noConfusion h2

/-- Witness for `recording_playing_mutually_exclusive`: a concrete
four-step trace ending inside playback. -/
theorem recording_playing_mutually_exclusive_witness :
    ¬ ((⟨.playLoop, false, true, false, 1, 2⟩ : SimplexSt).is_recording = true ∧
       (⟨.playLoop, false, true, false, 1, 2⟩ : SimplexSt).is_playing = true) := by
  have htrace : Relation.ReflTransGen (SimplexStep 2) (simplexInit false 2)
      ⟨.playLoop, false, true, false, 1, 2⟩ := by
    have h1 : SimplexStep 2 (simplexInit false 2) ⟨.recLoop, true, false, false, 0, 2⟩ :=
      SimplexStep.triggerRecord (simplexInit false 2) rfl rfl rfl
    have h2 : SimplexStep 2 (⟨.recLoop, true, false, false, 0, 2⟩ : SimplexSt)
        ⟨.recLoop, true, false, false, 1, 2⟩ :=
      SimplexStep.recChunk _ rfl
    have h3 : SimplexStep 2 (⟨.recLoop, true, false, false, 1, 2⟩ : SimplexSt)
        ⟨.afterRecord, false, false, false, 1, 2⟩ :=
      SimplexStep.finishRecord _ rfl
    have h4 : SimplexStep 2 (⟨.afterRecord, false, false, false, 1, 2⟩ : SimplexSt)
        ⟨.playLoop, false, true, false, 1, 2⟩ :=
      SimplexStep.beginPlay _ rfl (by norm_num)
    exact .head h1 (.head h2 (.head h3 (.head h4 .refl)))
  exact recording_playing_mutually_exclusive 2 2 false _ htrace

/-- The condition under which the concurrent monitor-playback thread pops
the delay ring buffer and writes to the output (line 1312):
`self.monitoring_enabled and not self.is_playing and
len(self.delayed_playback_buffer) >= self.delayed_playback_buffer_size`.
Note that `is_recording` is not consulted. -/
def monitorWriteGuard (size : ℕ) (s : SimplexSt) : Bool :=
  s.monitoring_enabled && !s.is_playing && decide (size ≤ s.delayed_buffer)

/-- C6 counterexample: a reachable state with `is_recording = true` and
monitoring enabled in which the monitor-write guard evaluates to true (the
monitor thread checks only `not is_playing`, line 1312) and in which the
next capture-loop iteration appends a monitor chunk to the delay ring
buffer (occupancy 2 → 3, lines 1427–1436) — so the monitoring path is not
disabled during Recording. -/
theorem monitoring_active_during_recording_cx :
    Relation.ReflTransGen (SimplexStep 2) (simplexInit true 2)
      ⟨.recLoop, true, false, true, 0, 2⟩ ∧
    (⟨.recLoop, true, false, true, 0, 2⟩ : SimplexSt).is_recording = true ∧
    SimplexStep 2 ⟨.recLoop, true, false, true, 0, 2⟩ ⟨.recLoop, true, false, true, 1, 3⟩ ∧
    (⟨.recLoop, true, false, true, 1, 3⟩ : SimplexSt).delayed_buffer =
      (⟨.recLoop, true, false, true, 0, 2⟩ : SimplexSt).delayed_buffer + 1 ∧
    monitorWriteGuard 2 ⟨.recLoop, true, false, true, 0, 2⟩ = true := by
  refine ⟨?_, rfl, ?_, rfl, by decide⟩
  · exact .head (SimplexStep.triggerRecord (simplexInit true 2) rfl rfl rfl) .refl
  · exact SimplexStep.recChunk _ rfl

/-- C6 amended: the monitoring path is inactive while Playing (but not
while Recording): in every reachable state with `is_playing = true`, the
monitor-write guard is false — no monitor chunk is written to the output —
and no engine step from that state appends a chunk to the delay ring
buffer; during Recording, captured chunks are still appended to the delay
ring buffer and the monitor thread may still write to the output when
monitoring is enabled. -/
theorem monitoring_inactive_while_playing (size prefill : ℕ) (monitoring : Bool)
    (s t : SimplexSt)
    (hreach : Relation.ReflTransGen (SimplexStep size) (simplexInit monitoring prefill) s)
    (hplay : s.is_playing = true) (hstep : SimplexStep size s t) :
    monitorWriteGuard size s = false ∧ t.delayed_buffer = s.delayed_buffer := by
  have hpc : s.pc = .playLoop :=
    (simplexFlagsInv_reachable size prefill monitoring s hreach).2.mp hplay
  refine ⟨by simp [monitorWriteGuard, hplay], ?_⟩
  cases hstep with
  | idleChunk hpc2 => exact SimplexPC.noConfusion (hpc.symm.trans hpc2)
  | triggerRecord hpc2 hrec hplay2 => exact SimplexPC.noConfusion (hpc.symm.trans hpc2)
  | recChunk hpc2 => exact SimplexPC.noConfusion (hpc.symm.trans hpc2)
  | finishRecord hpc2 => exact SimplexPC.noConfusion (hpc.symm.trans hpc2)
  | beginPlay hpc2 hbuf => exact SimplexPC.noConfusion (hpc.symm.trans hpc2)
  | skipPlay hpc2 hbuf => exact SimplexPC.noConfusion (hpc.symm.trans hpc2)
  | playChunk hpc2 hbuf => rfl
  | finishPlay hpc2 => rfl
  | monitorWrite hmon hplay2 hocc => exact Bool.noConfusion (hplay.symm.trans hplay2)

/-- Witness for `monitoring_inactive_while_playing`: a concrete trace into
playback and one playback-loop step. -/
theorem monitoring_inactive_while_playing_witness :
    (⟨.playLoop, false, true, false, 1, 2⟩ : SimplexSt).is_playing = true ∧
    monitorWriteGuard 2 ⟨.playLoop, false, true, false, 1, 2⟩ = false ∧
    (⟨.playLoop, false, true, false, 0, 2⟩ : SimplexSt).delayed_buffer =
      (⟨.playLoop, false, true, false, 1, 2⟩ : SimplexSt).delayed_buffer := by
  have htrace : Relation.ReflTransGen (SimplexStep 2) (simplexInit false 2)
      ⟨.playLoop, false, true, false, 1, 2⟩ := by
    have h1 : SimplexStep 2 (simplexInit false 2) ⟨.recLoop, true, false, false, 0, 2⟩ :=
      SimplexStep.triggerRecord (simplexInit false 2) rfl rfl rfl
    have h2 : SimplexStep 2 (⟨.recLoop, true, false, false, 0, 2⟩ : SimplexSt)
        ⟨.recLoop, true, false, false, 1, 2⟩ :=
      SimplexStep.recChunk _ rfl
    have h3 : SimplexStep 2 (⟨.recLoop, true, false, false, 1, 2⟩ : SimplexSt)
        ⟨.afterRecord, false, false, false, 1, 2⟩ :=
      SimplexStep.finishRecord _ rfl
    have h4 : SimplexStep 2 (⟨.afterRecord, false, false, false, 1, 2⟩ : SimplexSt)
        ⟨.playLoop, false, true, false, 1, 2⟩ :=
      SimplexStep.beginPlay _ rfl (by norm_num)
    exact .head h1 (.head h2 (.head h3 (.head h4 .refl)))
  have hstep : SimplexStep 2 (⟨.playLoop, false, true, false, 1, 2⟩ : SimplexSt)
      ⟨.playLoop, false, true, false, 0, 2⟩ :=
    SimplexStep.playChunk _ rfl (by norm_num)
  obtain ⟨hg, hd⟩ := monitoring_inactive_while_playing 2 2 false
    ⟨.playLoop, false, true, false, 1, 2⟩ ⟨.playLoop, false, true, false, 0, 2⟩
    htrace rfl hstep
  exact ⟨rfl, hg, hd⟩
